import Mathlib

/-!
Verification of the rust-stm specification against a shallow embedding of the
repository's core (src/stm-core).  Arc payloads are compared only by pointer
identity in the source, so a payload is modelled by its identity, a `Nat`;
a variable is likewise identified by the identity of its `VarControlBlock`,
also a `Nat`.  The committed store is a total map from variable identity to
the identity of its current payload.
-/

set_option autoImplicit false

namespace Stm

/-- Internal error taxonomy (`StmError` in result.rs; that file is not under
src/, the two variants are given by the spec's error-handling section). -/
inductive StmError where
  | Retry : StmError
  | Failure : StmError
deriving DecidableEq, Repr

/-- Result type of transactional operations, `StmResult<T> = Result<T, StmError>`. -/
abbrev StmResult (α : Type) : Type := Except StmError α

/-- Per-variable log entry (`LogVar` in transaction/log_var.rs).  The payload
arguments are payload identities. -/
inductive LogVar where
  | Read : Nat → LogVar
  | Write : Nat → LogVar
  | ReadWrite : Nat → Nat → LogVar
  | ReadObsolete : Nat → LogVar
  | ReadObsoleteWrite : Nat → Nat → LogVar
deriving DecidableEq, Repr

/-- Transaction log: the `vars` map of `Transaction` (tx.rs), an ordered map
from control-block identity to `LogVar`, modelled as an association list with
at most one entry per key. -/
abbrev Tx : Type := List (Nat × LogVar)

/-- Look up the log entry of a variable. -/
def lookupVar (t : Tx) (v : Nat) : Option LogVar :=
  (t.find? (fun p => p.1 == v)).map Prod.snd

/-- Modelled from the spec: `LogVar::read` lives in log_var.rs, which is not
under src/.  The spec's log-entry transition table says a read returns the
latest locally observed value, the pending write if any, else the read
snapshot, and records no transition for the entry itself. -/
def LogVar.readValue : LogVar → Nat
  | .Read v => v
  | .Write w => w
  | .ReadWrite _ w => w
  | .ReadObsolete v => v
  | .ReadObsoleteWrite _ w => w

/-- Modelled from the spec: `LogVar::obsolete` lives in log_var.rs, which is
not under src/.  The spec projects a live entry to its wait-relevant residue:
any entry carrying a read snapshot becomes `ReadObsolete` of that snapshot,
and a pure write contributes nothing. -/
def LogVar.obsolete : LogVar → Option LogVar
  | .Read v => some (.ReadObsolete v)
  | .ReadWrite v _ => some (.ReadObsolete v)
  | .ReadObsolete v => some (.ReadObsolete v)
  | .ReadObsoleteWrite v _ => some (.ReadObsolete v)
  | .Write _ => none

/-- Result of `Transaction::commit` (tx.rs): the returned boolean, the store
after the write-back phase, and the variables whose waiters are woken. -/
structure CommitResult where
  ok : Bool
  state : Nat → Nat
  woken : List Nat

/-- First phase of `Transaction::commit` (tx.rs): walk the entries in order,
validating read snapshots against the current store by pointer identity and
collecting the write set.  `none` models the early `return false`; `some ws`
the write set `write_vec` (paired with `written`, which holds the same
variables). -/
def commitLocks (state : Nat → Nat) : Tx → Option (List (Nat × Nat))
  | [] => some []
  | (v, lv) :: rest =>
    match lv with
    | .Write w => (commitLocks state rest).map (fun ws => (v, w) :: ws)
    | .ReadObsoleteWrite _ w => (commitLocks state rest).map (fun ws => (v, w) :: ws)
    | .ReadWrite original w =>
        if state v = original then (commitLocks state rest).map (fun ws => (v, w) :: ws)
        else none
    | .ReadObsolete _ => commitLocks state rest
    | .Read original =>
        if state v = original then commitLocks state rest
        else none

/-- Second phase of `Transaction::commit`: write each queued payload back. -/
def applyWrites (state : Nat → Nat) (ws : List (Nat × Nat)) : Nat → Nat :=
  ws.foldl (fun st p => fun x => if x = p.1 then p.2 else st x) state

/-- `Transaction::commit` (tx.rs lines 197-276): two-phase commit.  If any
read snapshot fails validation the function returns `false` before any write
or wake happens; otherwise every queued write is applied and the waiters of
every written variable are woken. -/
def commit (t : Tx) (state : Nat → Nat) : CommitResult :=
  match commitLocks state t with
  | none => { ok := false, state := state, woken := [] }
  | some ws => { ok := true, state := applyWrites state ws, woken := ws.map Prod.fst }

/-- Spec-side predicate for claim C1: the entry recorded a read snapshot
(`Read` or `ReadWrite`) and the current committed payload of its variable is
not pointer-identical to that snapshot. -/
def isReadMismatch (state : Nat → Nat) (p : Nat × LogVar) : Bool :=
  match p.2 with
  | .Read v => state p.1 != v
  | .ReadWrite v _ => state p.1 != v
  | _ => false

/-- Spec-side predicate: the entry is of a kind that is locked for writing
during commit (`Write` or `ReadObsoleteWrite`). -/
def isBlindWrite (p : Nat × LogVar) : Bool :=
  match p.2 with
  | .Write _ => true
  | .ReadObsoleteWrite _ _ => true
  | _ => false

theorem commitLocks_none_iff (state : Nat → Nat) (t : Tx) :
    commitLocks state t = none ↔ ∃ p ∈ t, isReadMismatch state p = true := by
  induction t with
  | nil => simp [commitLocks]
  | cons hd rest ih =>
    obtain ⟨v, lv⟩ := hd
    cases lv with
    | Read original =>
      by_cases h : state v = original
      · simp [commitLocks, h, ih, isReadMismatch]
      · simp [commitLocks, h, isReadMismatch]
    | Write w =>
      simp [commitLocks, Option.map_eq_none', ih, isReadMismatch]
    | ReadWrite original w =>
      by_cases h : state v = original
      · simp [commitLocks, h, Option.map_eq_none', ih, isReadMismatch]
      · simp [commitLocks, h, isReadMismatch]
    | ReadObsolete original =>
      simp [commitLocks, ih, isReadMismatch]
    | ReadObsoleteWrite original w =>
      simp [commitLocks, Option.map_eq_none', ih, isReadMismatch]

theorem commitLocks_mem_writes (state : Nat → Nat) (t : Tx) (ws : List (Nat × Nat))
    (hws : commitLocks state t = some ws) :
    ∀ p ∈ t, isBlindWrite p = true → p.1 ∈ ws.map Prod.fst := by
  induction t generalizing ws with
  | nil => intro p hp; simp at hp
  | cons hd rest ih =>
    obtain ⟨v, lv⟩ := hd
    intro p hp hw
    cases lv with
    | Read original =>
      rcases List.mem_cons.mp hp with hEq | hMem
      · subst hEq; simp [isBlindWrite] at hw
      · rw [commitLocks] at hws
        by_cases h : state v = original
        · rw [if_pos h] at hws
          exact ih ws hws p hMem hw
        · rw [if_neg h] at hws; exact absurd hws (by simp)
    | Write w =>
      rw [commitLocks] at hws
      rcases Option.map_eq_some'.mp hws with ⟨ws0, hws0, hcons⟩
      subst hcons
      rcases List.mem_cons.mp hp with hEq | hMem
      · subst hEq; simp
      · simp only [List.map_cons, List.mem_cons]
        exact Or.inr (ih ws0 hws0 p hMem hw)
    | ReadWrite original w =>
      rw [commitLocks] at hws
      by_cases h : state v = original
      · rw [if_pos h] at hws
        rcases Option.map_eq_some'.mp hws with ⟨ws0, hws0, hcons⟩
        subst hcons
        rcases List.mem_cons.mp hp with hEq | hMem
        · subst hEq; simp [isBlindWrite] at hw
        · simp only [List.map_cons, List.mem_cons]
          exact Or.inr (ih ws0 hws0 p hMem hw)
      · rw [if_neg h] at hws; exact absurd hws (by simp)
    | ReadObsolete original =>
      rw [commitLocks] at hws
      rcases List.mem_cons.mp hp with hEq | hMem
      · subst hEq; simp [isBlindWrite] at hw
      · exact ih ws hws p hMem hw
    | ReadObsoleteWrite original w =>
      rw [commitLocks] at hws
      rcases Option.map_eq_some'.mp hws with ⟨ws0, hws0, hcons⟩
      subst hcons
      rcases List.mem_cons.mp hp with hEq | hMem
      · subst hEq; simp
      · simp only [List.map_cons, List.mem_cons]
        exact Or.inr (ih ws0 hws0 p hMem hw)

/-- Claim C1: `Transaction::commit` returns `false` if and only if some
`Read` or `ReadWrite` entry's variable currently holds a payload that is not
pointer-identical to the recorded snapshot; `ReadObsolete` entries never
influence validation, and `Write` and `ReadObsoleteWrite` entries are queued
for writing with no consistency check, so on success they always appear in
the written set. -/
theorem commit_false_iff_read_mismatch (t : Tx) (state : Nat → Nat) :
    ((commit t state).ok = false ↔ ∃ p ∈ t, isReadMismatch state p = true) ∧
    (∀ p ∈ t, isBlindWrite p = true → (commit t state).ok = true →
      p.1 ∈ (commit t state).woken) := by
  constructor
  · rw [← commitLocks_none_iff state t]
    unfold commit
    cases h : commitLocks state t <;> simp [h]
  · intro p hp hw hok
    unfold commit at hok
    cases h : commitLocks state t with
    | none => rw [h] at hok; simp at hok
    | some ws =>
      unfold commit
      rw [h]
      simpa using commitLocks_mem_writes state t ws h p hp hw

theorem commit_false_iff_read_mismatch_witness :
    ((commit [(0, LogVar.Read 5)] (fun _ => 6)).ok = false ↔
      ∃ p ∈ [(0, LogVar.Read 5)], isReadMismatch (fun _ => 6) p = true) ∧
    (∀ p ∈ [(0, LogVar.Read 5)], isBlindWrite p = true →
      (commit [(0, LogVar.Read 5)] (fun _ => 6)).ok = true →
      p.1 ∈ (commit [(0, LogVar.Read 5)] (fun _ => 6)).woken) :=
  commit_false_iff_read_mismatch [(0, LogVar.Read 5)] (fun _ => 6)

/-- Claim C2: when `Transaction::commit` returns `false`, no variable's
committed payload has been modified and no waiter has been woken: the
write-back and wake phases run only after every snapshot entry validated. -/
theorem commit_failure_no_effects (t : Tx) (state : Nat → Nat)
    (h : (commit t state).ok = false) :
    (commit t state).state = state ∧ (commit t state).woken = [] := by
  unfold commit at h ⊢
  cases hl : commitLocks state t with
  | none => exact ⟨rfl, rfl⟩
  | some ws => rw [hl] at h; simp at h

theorem commit_failure_no_effects_witness :
    (commit [(1, LogVar.ReadWrite 3 9)] (fun _ => 4)).state = (fun _ => 4) ∧
    (commit [(1, LogVar.ReadWrite 3 9)] (fun _ => 4)).woken = [] :=
  commit_failure_no_effects [(1, LogVar.ReadWrite 3 9)] (fun _ => 4) (by decide)

/-- The `or_insert` call in `Transaction::combine`: insert a value only if the
variable has no entry yet. -/
def insertIfAbsent (t : Tx) (v : Nat) (lv : LogVar) : Tx :=
  if (lookupVar t v).isSome then t else t ++ [(v, lv)]

/-- `Transaction::combine` (tx.rs lines 176-184): for every entry of `other`
that has an obsolete residue, insert that residue into `self` unless the
variable already has an entry. -/
def combine (self other : Tx) : Tx :=
  other.foldl
    (fun acc p =>
      match p.2.obsolete with
      | some value => insertIfAbsent acc p.1 value
      | none => acc)
    self

/-- `Transaction::or` (tx.rs lines 139-173).  A branch is a state transformer
on the log.  The backup `copy` of the log is taken up front; if the first
branch retries, the pre-first log is restored (the swap) and the second
branch runs on it; a `Failure` from the second branch is returned as is,
any other outcome is returned after combining the discarded first log into
the live one. -/
def txOr {α : Type} (first second : Tx → StmResult α × Tx) (t : Tx) :
    StmResult α × Tx :=
  match first t with
  | (Except.error StmError.Retry, t1) =>
      match second t with
      | (Except.error StmError.Failure, t2) => (Except.error StmError.Failure, t2)
      | (s, t2) => (s, combine t2 t1)
  | x => x

/-- The helper `optionally` (lib.rs lines 292-299): run `f` as the first
branch of an `or` whose second branch returns `Ok(None)` unchanged. -/
def optionally {α : Type} (f : Tx → StmResult α × Tx) (t : Tx) :
    StmResult (Option α) × Tx :=
  txOr (fun s => ((f s).1.map Option.some, (f s).2))
    (fun s => (Except.ok Option.none, s)) t

/-- `Transaction::read` (tx.rs lines 90-111): if the variable has an entry,
return its locally observed value and leave the log as is; otherwise read the
current committed payload, install it as a `Read` entry and return it.  The
result is always `Ok`. -/
def txRead (t : Tx) (v : Nat) (state : Nat → Nat) : StmResult Nat × Tx :=
  match lookupVar t v with
  | some lv => (Except.ok lv.readValue, t)
  | none => (Except.ok (state v), t ++ [(v, LogVar.Read (state v))])

/-- Spec-side description of the value claim C8 expects from a transactional
read: the pending local write if the log has one, else the recorded read
snapshot, else the current committed payload. -/
def specLatestLocalValue (t : Tx) (v : Nat) (state : Nat → Nat) : Nat :=
  match lookupVar t v with
  | some (LogVar.Write w) => w
  | some (LogVar.ReadWrite _ w) => w
  | some (LogVar.ReadObsoleteWrite _ w) => w
  | some (LogVar.Read s) => s
  | some (LogVar.ReadObsolete s) => s
  | none => state v

/-- `TransactionGuard::new` (tx.rs lines 30-38): `running` is the thread-local
TRANSACTION_RUNNING flag; `none` models the assertion "STM: Nested
Transaction" firing (a panic), `some flag` is the flag after the call. -/
def transactionGuardNew (running : Bool) : Option Bool :=
  if running then none else some true

/-- Claim C9: constructing a `TransactionGuard` (as `atomically` does) panics
exactly when a transaction is already running on the thread, and otherwise
sets the flag. -/
theorem transaction_guard_panics_iff_nested (running : Bool) :
    (transactionGuardNew running = none ↔ running = true) ∧
    (running = false → transactionGuardNew running = some true) := by
  cases running <;> simp [transactionGuardNew]

theorem transaction_guard_panics_iff_nested_witness :
    (transactionGuardNew true = none ↔ true = true) ∧
    (true = false → transactionGuardNew true = some true) :=
  transaction_guard_panics_iff_nested true

/-- Claim C6: if the first branch of `Transaction::or` returns `Retry` and the
second branch, run on the restored pre-first log, also returns `Retry`, the
combined `or` returns `Retry`, not `Failure`. -/
theorem or_both_retry_returns_retry {α : Type}
    (first second : Tx → StmResult α × Tx) (t : Tx)
    (h1 : (first t).1 = Except.error StmError.Retry)
    (h2 : (second t).1 = Except.error StmError.Retry) :
    (txOr first second t).1 = Except.error StmError.Retry := by
  rcases hf : first t with ⟨r1, t1⟩
  rcases hs : second t with ⟨r2, t2⟩
  have e1 : r1 = Except.error StmError.Retry := by rw [hf] at h1; exact h1
  have e2 : r2 = Except.error StmError.Retry := by rw [hs] at h2; exact h2
  subst e1
  subst e2
  unfold txOr
  rw [hf, hs]

theorem or_both_retry_returns_retry_witness :
    (txOr (α := Nat) (fun s => (Except.error StmError.Retry, s))
          (fun s => (Except.error StmError.Retry, s)) ([] : Tx)).1 =
      Except.error StmError.Retry :=
  or_both_retry_returns_retry (α := Nat)
    (fun s => (Except.error StmError.Retry, s))
    (fun s => (Except.error StmError.Retry, s)) [] rfl rfl

/-- Counterexample to claim C7: when the first branch retries and the second
branch returns the `Failure` kind, `Transaction::or` returns `Failure`
without merging the discarded first log.  Here the first branch's log holds a
`Read` entry at variable 7, which has an obsolete residue, yet the live log
after the `or` is empty and has no entry at variable 7. -/
theorem or_failure_skips_combine_cex :
    (txOr (α := Nat)
      (fun _ => (Except.error StmError.Retry, [(7, LogVar.Read 3)]))
      (fun s => (Except.error StmError.Failure, s)) ([] : Tx)).2 = [] ∧
    LogVar.obsolete (LogVar.Read 3) = some (LogVar.ReadObsolete 3) ∧
    lookupVar (txOr (α := Nat)
      (fun _ => (Except.error StmError.Retry, [(7, LogVar.Read 3)]))
      (fun s => (Except.error StmError.Failure, s)) ([] : Tx)).2 7 = none :=
  ⟨rfl, rfl, rfl⟩

/-- Claim C7 as amended: when the first branch of `Transaction::or` returns
`Retry` and the second branch returns any outcome other than the `Failure`
kind (success or `Retry`), the discarded first branch's log is merged into
the live log via `combine`; on a `Failure` from the second branch no merge
happens. -/
theorem or_retry_combines_unless_failure {α : Type}
    (first second : Tx → StmResult α × Tx) (t : Tx)
    (h1 : (first t).1 = Except.error StmError.Retry)
    (h2 : (second t).1 ≠ Except.error StmError.Failure) :
    txOr first second t = ((second t).1, combine (second t).2 (first t).2) := by
  rcases hf : first t with ⟨r1, t1⟩
  rcases hs : second t with ⟨r2, t2⟩
  have e1 : r1 = Except.error StmError.Retry := by rw [hf] at h1; exact h1
  subst e1
  have e2 : r2 ≠ Except.error StmError.Failure := by rw [hs] at h2; exact h2
  unfold txOr
  rw [hf, hs]
  cases r2 with
  | ok a => rfl
  | error e =>
    cases e with
    | Retry => rfl
    | Failure => exact absurd rfl e2

theorem or_retry_combines_unless_failure_witness :
    txOr (α := Nat)
      (fun _ => (Except.error StmError.Retry, [(3, LogVar.Read 1)]))
      (fun s => (Except.ok 5, s)) ([] : Tx) =
      ((Except.ok 5 : StmResult Nat), combine ([] : Tx) [(3, LogVar.Read 1)]) :=
  or_retry_combines_unless_failure
    (fun _ => (Except.error StmError.Retry, [(3, LogVar.Read 1)]))
    (fun s => (Except.ok 5, s)) [] rfl (fun h => Except.noConfusion h)

/-- Claim C8: `Transaction::read` always returns `Ok`, and the value returned
is the latest locally observed value: the pending local write if the log has
one, else the recorded read snapshot, else the current committed payload,
which in the latter case is installed in the log as a `Read` entry (an
existing entry is left unchanged). -/
theorem read_never_fails_and_returns_latest (t : Tx) (v : Nat) (state : Nat → Nat) :
    (txRead t v state).1 = Except.ok (specLatestLocalValue t v state) ∧
    (lookupVar t v = none →
      (txRead t v state).2 = t ++ [(v, LogVar.Read (state v))]) ∧
    (lookupVar t v ≠ none → (txRead t v state).2 = t) := by
  unfold txRead specLatestLocalValue
  cases h : lookupVar t v with
  | none => simp
  | some lv => cases lv <;> simp [LogVar.readValue]

theorem read_never_fails_and_returns_latest_witness :
    (txRead [(2, LogVar.ReadWrite 4 9)] 2 (fun _ => 0)).1 =
      Except.ok (specLatestLocalValue [(2, LogVar.ReadWrite 4 9)] 2 (fun _ => 0)) ∧
    (lookupVar [(2, LogVar.ReadWrite 4 9)] 2 = none →
      (txRead [(2, LogVar.ReadWrite 4 9)] 2 (fun _ => 0)).2 =
        [(2, LogVar.ReadWrite 4 9)] ++ [(2, LogVar.Read 0)]) ∧
    (lookupVar [(2, LogVar.ReadWrite 4 9)] 2 ≠ none →
      (txRead [(2, LogVar.ReadWrite 4 9)] 2 (fun _ => 0)).2 =
        [(2, LogVar.ReadWrite 4 9)]) :=
  read_never_fails_and_returns_latest [(2, LogVar.ReadWrite 4 9)] 2 (fun _ => 0)

/-- Claim C10: `optionally` absorbs only the `Retry` failure: `Ok(v)` becomes
`Ok(Some(v))`, `Retry` becomes `Ok(None)`, and a `Failure` from the body
propagates unchanged, with the first branch's log kept, rather than being
converted to `Ok(None)`. -/
theorem optionally_absorbs_only_retry {α : Type}
    (f : Tx → StmResult α × Tx) (t : Tx) :
    (∀ a, (f t).1 = Except.ok a → (optionally f t).1 = Except.ok (some a)) ∧
    ((f t).1 = Except.error StmError.Retry → (optionally f t).1 = Except.ok none) ∧
    ((f t).1 = Except.error StmError.Failure →
      optionally f t = (Except.error StmError.Failure, (f t).2)) := by
  rcases hf : f t with ⟨r, t1⟩
  refine ⟨?_, ?_, ?_⟩
  · intro a ha
    have e : r = Except.ok a := ha
    subst e
    simp [optionally, txOr, hf, Except.map]
  · intro ha
    have e : r = Except.error StmError.Retry := ha
    subst e
    simp [optionally, txOr, hf, Except.map]
  · intro ha
    have e : r = Except.error StmError.Failure := ha
    subst e
    simp [optionally, txOr, hf, Except.map]

theorem optionally_absorbs_only_retry_witness :
    optionally (α := Nat) (fun s => (Except.error StmError.Failure, s)) ([] : Tx) =
      (Except.error StmError.Failure, ([] : Tx)) :=
  (optionally_absorbs_only_retry (α := Nat)
    (fun s => (Except.error StmError.Failure, s)) []).2.2 rfl

/-- `TransactionControl` (tx.rs lines 48-51). -/
inductive TransactionControl where
  | Retry : TransactionControl
  | Abort : TransactionControl
deriving DecidableEq, Repr

/-- Observable actions a driver iteration can perform.  `registerWaiter` and
`blockThread` are the wait-list enrollment and parking actions of the
`VarControlBlock` API; they are listed so that their absence from an
iteration's trace is expressible. -/
inductive DriverEffect where
  | runBody : DriverEffect
  | commitVars : DriverEffect
  | registerWaiter : Nat → DriverEffect
  | blockThread : DriverEffect
  | clearLog : DriverEffect
deriving DecidableEq, Repr

/-- Outcome of one pass through a driver loop: return from `with_control`, or
go around the loop again. -/
inductive LoopStep (α : Type) where
  | halt : Option α → LoopStep α
  | rerun : LoopStep α
deriving DecidableEq, Repr

/-- One iteration of the loop in `NonDeterministic::with_control`
(nondeterministic.rs lines 49-69), as the ordered trace of effects it
performs and what it does next.  `r` is the body's result; `ctl` the control
function; `commitOk` the value `tx.commit()` would return (consulted only in
the `Ok` branch, where the source calls it).  The source's `Err` branch
consults `control` and either returns `None` or falls through to
`tx.clear()`; it touches no wait list and never blocks. -/
def nonDetLoopIter {α : Type} (r : StmResult α)
    (ctl : StmError → TransactionControl) (commitOk : Bool) :
    List DriverEffect × LoopStep α :=
  match r with
  | Except.ok t =>
      if commitOk then ([DriverEffect.runBody, DriverEffect.commitVars],
        LoopStep.halt (some t))
      else ([DriverEffect.runBody, DriverEffect.commitVars, DriverEffect.clearLog],
        LoopStep.rerun)
  | Except.error e =>
      match ctl e with
      | TransactionControl.Abort => ([DriverEffect.runBody], LoopStep.halt none)
      | TransactionControl.Retry =>
          ([DriverEffect.runBody, DriverEffect.clearLog], LoopStep.rerun)

/-- Claim C3 is refuted by the code: when the body returns the `Retry`
failure and the control policy keeps retrying (the policy `atomically`
installs), the iteration's whole trace is run-body followed by clear-log and
the loop immediately re-runs the body; no `registerWaiter` and no
`blockThread` effect occurs, for any log contents. -/
theorem nondet_retry_reruns_without_waiting :
    nonDetLoopIter (α := Nat) (Except.error StmError.Retry)
      (fun _ => TransactionControl.Retry) true =
      ([DriverEffect.runBody, DriverEffect.clearLog], LoopStep.rerun) ∧
    nonDetLoopIter (α := Nat) (Except.error StmError.Retry)
      (fun _ => TransactionControl.Retry) false =
      ([DriverEffect.runBody, DriverEffect.clearLog], LoopStep.rerun) := by
  exact ⟨rfl, rfl⟩

/-- One dispatch performed by `Coordination::assign_channels`: participant
`participant` is sent the pair (receiver of channel `prevRx`, sender of
channel `nextTx`) over its coordination channel. -/
structure Dispatch where
  participant : Nat
  prevRx : Nat
  nextTx : Nat
deriving DecidableEq, Repr

/-- Result of `Coordination::assign_channels`: the dispatches made, the
channel seeded with the initial token, and the channel whose receiver the
function returns. -/
structure AssignResult where
  dispatches : List Dispatch
  seeded : Nat
  lastRx : Nat
deriving DecidableEq, Repr

/-- The `for e in elements` loop of `assign_channels` (deterministic.rs lines
68-74) over the remaining `k` participants, starting at participant index
`idx`: each iteration creates a fresh channel (ids count up from `nextChan`),
dispatches the pair (current predecessor receiver, fresh sender) to the
participant, and the fresh receiver becomes the next predecessor. -/
def assignLoop (prevRx nextChan idx : Nat) : Nat → List Dispatch
  | 0 => []
  | Nat.succ k =>
      { participant := idx, prevRx := prevRx, nextTx := nextChan } ::
        assignLoop nextChan (nextChan + 1) (idx + 1) k

/-- `Coordination::assign_channels` (deterministic.rs lines 57-77) over `n`
registered participants.  Channel ids follow creation order: 0 is the
(first_tx, prev_rx) channel, seeded with the initial token; 1 is the
(next_tx, last_rx) channel, whose receiver is returned; channel 2 onward are
created by the loop.  `split_last` is a panic (`none`) on an empty list;
otherwise the loop runs over `elements`, all participants except the last. -/
def assignChannels (n : Nat) : Option AssignResult :=
  if n = 0 then none
  else some { dispatches := assignLoop 0 2 0 (n - 1), seeded := 0, lastRx := 1 }

theorem assignLoop_participant_lt (k : Nat) :
    ∀ prevRx nextChan idx d, d ∈ assignLoop prevRx nextChan idx k →
      d.participant < idx + k := by
  induction k with
  | zero => intro prevRx nextChan idx d hd; simp [assignLoop] at hd
  | succ k ih =>
    intro prevRx nextChan idx d hd
    rcases List.mem_cons.mp hd with hEq | hMem
    · subst hEq
      show idx < idx + (k + 1)
      omega
    · have := ih nextChan (nextChan + 1) (idx + 1) d hMem
      omega

theorem assignLoop_participants (k : Nat) :
    ∀ prevRx nextChan idx,
      (assignLoop prevRx nextChan idx k).map Dispatch.participant =
        (List.range k).map (fun j => idx + j) := by
  induction k with
  | zero => intro prevRx nextChan idx; simp [assignLoop]
  | succ k ih =>
    intro prevRx nextChan idx
    rw [List.range_succ_eq_map]
    simp only [assignLoop, List.map_cons, ih nextChan (nextChan + 1) (idx + 1),
      List.map_map]
    refine congrArg₂ (· :: ·) (by omega) ?_
    refine List.map_congr_left ?_
    intro j _
    simp
    omega

/-- Claim C4 is refuted by the code: over `n + 1` registered participants,
the participants dispatched token channels in a round are exactly
`0, ..., n - 1`; the last registered participant (index `n`) is never
dispatched its channel pair, so it stays blocked on its coordination channel
and can never reach its commit, and no round can produce the registered
sequence of commits. -/
theorem det_round_dispatches_exclude_last (n : Nat) :
    (assignChannels (n + 1)).map (fun r => r.dispatches.map Dispatch.participant) =
      some (List.range n) := by
  have h : assignChannels (n + 1) =
      some { dispatches := assignLoop 0 2 0 n, seeded := 0, lastRx := 1 } := by
    unfold assignChannels
    simp
  rw [h, Option.map_some']
  rw [assignLoop_participants n 0 2 0]
  simp

/-- Claim C5 is refuted by the code, evaluated at two registered
participants: `assign_channels` dispatches one channel pair, to participant 0
only; the last participant receives nothing, and with a single participant
nothing is dispatched at all. -/
theorem assign_channels_skips_last_participant :
    (assignChannels 2).map (fun r => r.dispatches.map Dispatch.participant) =
      some [0] ∧
    (assignChannels 1).map (fun r => r.dispatches) = some [] ∧
    assignChannels 2 =
      some { dispatches := [{ participant := 0, prevRx := 0, nextTx := 2 }],
             seeded := 0, lastRx := 1 } := by
  exact ⟨rfl, rfl, rfl⟩

end Stm
